import Mathlib

/-!
Verification of the control-diagram editor model (src/src/util.ts).

Shallow embedding: coordinates are rationals, shape ids are integers,
the Konva layer's line objects are modelled by an association table from
line ids to `Line` records (shared mutable references in the source become
table lookups here).  Rendering concerns (paths, text, cursors) are not
modelled; only the diagram data model, the orthogonal-routing functions and
the gesture handlers that the properties are about.
-/

set_option maxHeartbeats 1000000

namespace ControlDiagram

/-- Anchor kind: the source string union `'in' | 'out' | 'in-out'`. -/
inductive AnchorKind
  | input
  | output
  | inOut
deriving DecidableEq

/-- `IPidAnchor` from util.ts: an anchor with a kind and a local offset. -/
structure IPidAnchor where
  kind : AnchorKind
  x : ℚ
  y : ℚ
deriving DecidableEq

/-- `PIDIconType` from util.ts. -/
inductive PIDIconType
  | valve
  | pump
  | compressor
  | heatExchanger
  | separator
  | tank
  | pipe
  | fitting
  | instrument
  | controlValve
deriving DecidableEq

/-- `IPidShape` from util.ts: an immutable shape template. -/
structure IPidShape where
  name : String
  path : String
  height : ℚ
  width : ℚ
  kind : PIDIconType
  anchors : List IPidAnchor
deriving DecidableEq

/-- One element of `IDtoPidShape.c` from util.ts: a stored connection record
(`l` route points, start anchor index, start shape id, end anchor index). -/
structure ConnRecord where
  l : List ℚ
  sai : ℕ
  sid : ℤ
  eai : ℕ
deriving DecidableEq

/-- `IDtoPidShape` from util.ts: the serializable snapshot of one placed shape.
Connections are stored on the shape which ends the connection. -/
structure IDtoPidShape where
  s : IPidShape
  x : ℚ
  y : ℚ
  id : ℤ
  c : List ConnRecord
deriving DecidableEq

/-- The source string union `'start' | 'end'` of `IConnector.type`. -/
inductive ConnType
  | start
  | endC
deriving DecidableEq

/-- A Konva `Line` as the editor uses it: its points, its `name` attribute,
the `cacStartAnchorIndex` / `cacStartPidShapeId` attributes, and whether the
node is still on the layer (`destroy()` removes it from the layer but the
object and its attributes survive through connector references). -/
structure Line where
  points : List ℚ
  name : String
  cacStartAnchorIndex : ℕ
  cacStartPidShapeId : ℤ
  inLayer : Bool
deriving DecidableEq

/-- `IConnector` from util.ts; the shared `Line` reference becomes a line id. -/
structure IConnector where
  lineId : ℕ
  anchorIndex : ℕ
  ctype : ConnType
deriving DecidableEq

/-- A placed shape: its `cacDto` attribute plus its `cacConnectors` attribute. -/
structure PlacedShape where
  dto : IDtoPidShape
  connectors : List IConnector
deriving DecidableEq

/-- The editor model: the placed shapes of the layer (in z-order, which is
insertion order) and the table of all `Line` objects ever created. -/
structure EditorState where
  shapes : List PlacedShape
  lineTable : List (ℕ × Line)
  nextLineId : ℕ
deriving DecidableEq

def emptyState : EditorState := ⟨[], [], 0⟩

/-- Find-then-mutate on the first list element satisfying `p`, as the source
does with `find` followed by in-place mutation of the found object. -/
def modifyFirst (p : α → Bool) (f : α → α) : List α → List α
  | [] => []
  | a :: as => if p a then f a :: as else a :: modifyFirst p f as

/-- Resolve a line id in the table (a shared object reference in the source). -/
def lookupLine (t : List (ℕ × Line)) (k : ℕ) : Option Line :=
  (t.find? (fun kv => kv.1 == k)).map (fun kv => kv.2)

/-- Overwrite the line object with id `k` (mutation of the shared object). -/
def setLine (t : List (ℕ × Line)) (k : ℕ) (ln : Line) : List (ℕ × Line) :=
  t.map (fun kv => if kv.1 == k then (kv.1, ln) else kv)

/-- `line.destroy()`: the node leaves the layer; its attributes survive. -/
def destroyLine (t : List (ℕ × Line)) (k : ℕ) : List (ℕ × Line) :=
  t.map (fun kv => if kv.1 == k then (kv.1, { kv.2 with inLayer := false }) else kv)

/-- `recalculateTheLine` from util.ts: keep the line's start point, route to
`pos` with two bends through the vertical at `middleX = (startX + pos.x) / 2`. -/
def recalculateTheLine (points : List ℚ) (pos : ℚ × ℚ) : List ℚ :=
  let startX := points.getD 0 0
  let startY := points.getD 1 0
  let middleX := (startX + pos.1) / 2
  [startX, startY, middleX, startY, middleX, pos.2, pos.1, pos.2]

/-- The per-connector update of the `dragmove` handler in `CacEditor.addShape`:
`g` is the dragged shape's anchor at its new absolute position.  An `end`
connector reroutes with `recalculateTheLine`; a `start` connector keeps the
existing end point and middle x and moves only the start. -/
def dragmoveUpdate (g : ℚ × ℚ) (c : IConnector) (points : List ℚ) : List ℚ :=
  match c.ctype with
  | ConnType.endC => recalculateTheLine points g
  | ConnType.start =>
      let endX := points.getD (points.length - 2) 0
      let endY := points.getD (points.length - 1) 0
      let startX := points.getD 0 0
      let middleX := (startX + endX) / 2
      [g.1, g.2, middleX, g.2, middleX, endY, endX, endY]

/-- `CacEditor.#addConnectorToPath`: push an `IConnector` onto the shape; for
an `end` connector additionally push the serializable record onto `dto.c`,
reading points and start attributes from the line.  No validation of
`anchorIndex` of any kind is performed by the source. -/
def addConnectorToPath (p : PlacedShape) (lid : ℕ) (line : Line)
    (anchorIndex : ℕ) (ctype : ConnType) : PlacedShape :=
  let p1 : PlacedShape := { p with connectors := p.connectors ++ [⟨lid, anchorIndex, ctype⟩] }
  match ctype with
  | ConnType.endC =>
      let rec2 : ConnRecord :=
        ⟨line.points, line.cacStartAnchorIndex, line.cacStartPidShapeId, anchorIndex⟩
      { p1 with dto := { p1.dto with c := p1.dto.c ++ [rec2] } }
  | ConnType.start => p1

/-- `CacEditor.addShape`: append a fresh placed shape with dto
`{ s, x, y, id, c: [] }` and no connectors. -/
def addShape (st : EditorState) (pidShape : IPidShape) (x y : ℚ) (i : ℤ) : EditorState :=
  { st with shapes := st.shapes ++ [⟨⟨pidShape, x, y, i, []⟩, []⟩] }

/-- The body of the per-connection work of `CacEditor.importJson` once the
start shape id resolved: create the line from the stored record, attach a
`start` connector to the first shape whose id is `conn.sid`, then attach an
`end` connector (which pushes the record back) to the first shape whose id is
`endId` (the id of the document entry owning the record). -/
def processConnCore (st : EditorState) (endId : ℤ) (conn : ConnRecord) : EditorState :=
  let lid := st.nextLineId
  let newLine : Line := ⟨conn.l, "cacConnectorTwoPidShape", conn.sai, conn.sid, true⟩
  ⟨modifyFirst (fun p => p.dto.id == endId)
      (fun p => addConnectorToPath p lid newLine conn.eai ConnType.endC)
      (modifyFirst (fun p => p.dto.id == conn.sid)
        (fun p => addConnectorToPath p lid newLine conn.sai ConnType.start) st.shapes),
   st.lineTable ++ [(lid, newLine)], lid + 1⟩

/-- One connection record during `CacEditor.importJson`: if the record's
`sid` resolves to no shape the record is skipped (`if (!groupAndPidShapeStart)
return`), otherwise it is reconstructed. -/
def processConn (st : EditorState) (d : IDtoPidShape) (conn : ConnRecord) : EditorState :=
  if (st.shapes.find? (fun p => p.dto.id == conn.sid)).isSome then
    processConnCore st d.id conn
  else st

/-- `CacEditor.importJson` into an empty editor: first `addShape` for every
document entry, then reconstruct the connections entry by entry. -/
def importJson (data : List IDtoPidShape) : EditorState :=
  let st0 := data.foldl (fun st d => addShape st d.s d.x d.y d.id) emptyState
  data.foldl (fun st d => d.c.foldl (fun st2 conn => processConn st2 d conn) st) st0

/-- The `dto.c[index].l = c.line.attrs.points` refresh loop of
`CacEditor.#export`: overwrite the `l` of the stored records, in order, with
the current points of the shape's `end` connector lines. -/
def refreshC : List ConnRecord → List (List ℚ) → List ConnRecord
  | [], _ => []
  | cs, [] => cs
  | cr :: cs, pts :: rest => { cr with l := pts } :: refreshC cs rest

def defaultLine : Line := ⟨[], "", 0, 0, true⟩

/-- The current points of a shape's `end` connector lines, in order. -/
def endPointsOf (t : List (ℕ × Line)) (p : PlacedShape) : List (List ℚ) :=
  (p.connectors.filter (fun c => c.ctype == ConnType.endC)).map
    (fun c => ((lookupLine t c.lineId).getD defaultLine).points)

/-- One shape's contribution to `CacEditor.#export`. -/
def exportShape (t : List (ℕ × Line)) (p : PlacedShape) : IDtoPidShape :=
  { p.dto with c := refreshC p.dto.c (endPointsOf t p) }

/-- `CacEditor.exportJson` = `CacEditor.#export`: refresh every stored route
from the live lines, then emit the dtos in layer order. -/
def exportJson (st : EditorState) : List IDtoPidShape :=
  st.shapes.map (exportShape st.lineTable)

/-- `CacEditor.#deleteShape`: destroy the lines of every connector stored on
the shape, then destroy the shape's group (removing it from the layer). -/
def deleteShape (st : EditorState) (si : ℕ) : EditorState :=
  match st.shapes[si]? with
  | none => st
  | some p =>
      ⟨st.shapes.eraseIdx si,
       p.connectors.foldl (fun t c => destroyLine t c.lineId) st.lineTable,
       st.nextLineId⟩

/-- `layer.findOne('.cacCurrentLine')`: the first line on the layer named
`cacCurrentLine`. -/
def findCurrentLine (st : EditorState) : Option (ℕ × Line) :=
  st.lineTable.find? (fun kv => kv.2.inLayer && kv.2.name == "cacCurrentLine")

/-- The `mousedown touchstart` handler of `#createAnchorShapes`: only when no
`cacCurrentLine` exists, create one starting at the anchor's position, tagged
with the originating shape id and anchor index. -/
def anchorMouseDown (st : EditorState) (shapeId : ℤ) (anchorIndex : ℕ) (pos : ℚ × ℚ) : EditorState :=
  match findCurrentLine st with
  | some _ => st
  | none =>
      ⟨st.shapes,
       st.lineTable ++ [(st.nextLineId, ⟨[pos.1, pos.2], "cacCurrentLine", anchorIndex, shapeId, true⟩)],
       st.nextLineId + 1⟩

/-- `CacEditor.#endConnectingLine`: reroute the current line to `pos`, rename
it, and attach its `start` connector to the shape whose id it was tagged with.
`ok none` is the source's `return` when no current line exists.  When the
tagged start shape no longer exists (it was deleted while the line was in
progress) the source calls `#addConnectorToPath(undefined, …)` and throws a
TypeError *after* the line has already been rerouted and renamed: modelled as
`Except.error` carrying the editor state as mutated at the moment of the
throw (line rewritten in the table, no connector attached). -/
def endConnectingLine (st : EditorState) (pos : ℚ × ℚ) :
    Except EditorState (Option (EditorState × ℕ × Line)) :=
  match findCurrentLine st with
  | none => Except.ok none
  | some (lid, line) =>
      let line2 : Line := { line with points := recalculateTheLine line.points pos
                                      name := "cacConnectorTwoPidShape" }
      let st1 : EditorState := { st with lineTable := setLine st.lineTable lid line2 }
      if (st1.shapes.find? (fun p => p.dto.id == line.cacStartPidShapeId)).isSome then
        let shapes2 := modifyFirst (fun p => p.dto.id == line.cacStartPidShapeId)
          (fun p => addConnectorToPath p lid line2 line.cacStartAnchorIndex ConnType.start)
          st1.shapes
        Except.ok (some ({ st1 with shapes := shapes2 }, lid, line2))
      else Except.error st1

/-- The `emptyEnd` template of `CacEditor.#createEmtpyShape`: a small
two-anchor pass-through stub shape. -/
def emptyEnd : IPidShape :=
  { name := ""
    anchors := [⟨AnchorKind.inOut, 0, 7⟩, ⟨AnchorKind.inOut, 14, 7⟩]
    path := "m 0 0 a 5 5 0 0 1 14 0 a 5 5 0 0 1 -14 0"
    height := 10
    width := 10
    kind := PIDIconType.valve }

/-- The stage `click tap` handler of `CacEditor.init` (target = stage).  With
no resolvable pointer position the current line is destroyed.  Otherwise, when
a current line exists: end it, auto-create the `emptyEnd` stub at the release
point via `addShape` (`rid` models the randomly generated default id), and
attach the line's `end` connector at anchor index 0 to the freshly appended
stub.  A TypeError thrown inside `#endConnectingLine` (deleted start shape)
propagates out of the handler before the stub is created: `Except.error`
carries the state at the throw.  If `#endConnectingLine` returned undefined
the source would still create the stub and skip only the connector
(`if (line)`), hence the `ok none` branch. -/
def stageClick (st : EditorState) (posOpt : Option (ℚ × ℚ)) (rid : ℤ) :
    Except EditorState EditorState :=
  match posOpt with
  | none =>
      match findCurrentLine st with
      | some (lid, line) =>
          Except.ok { st with lineTable := setLine st.lineTable lid { line with inLayer := false } }
      | none => Except.ok st
  | some pos =>
      if (findCurrentLine st).isSome then
        match endConnectingLine st pos with
        | Except.ok (some (st1, lid, line2)) =>
            let stub : PlacedShape := ⟨⟨emptyEnd, pos.1, pos.2, rid, []⟩, []⟩
            Except.ok { st1 with shapes := st1.shapes ++ [addConnectorToPath stub lid line2 0 ConnType.endC] }
        | Except.ok none =>
            Except.ok { st with shapes := st.shapes ++ [⟨⟨emptyEnd, pos.1, pos.2, rid, []⟩, []⟩] }
        | Except.error s => Except.error s
      else Except.ok st

/-- The default id of `CacEditor.addShape`:
`Math.floor(Math.random() * 1000000)` with `r` the random sample. -/
def defaultShapeId (r : ℚ) : ℤ := ⌊r * 1000000⌋

/-- The absolute origin `getClientRect({relativeTo: layer})` of a placed
shape's path: the group position plus the path's own local bounding-box
offset (supplied by the rendering library). -/
def clientRectOf (groupPos localRect : ℚ × ℚ) : ℚ × ℚ :=
  (groupPos.1 + localRect.1, groupPos.2 + localRect.2)

/-- `CacEditor.#createAnchorShapes`: one marker per template anchor, at the
anchor offset translated by the path's client rect origin. -/
def createAnchorShapes (anchors : List IPidAnchor) (rect : ℚ × ℚ) : List (ℚ × ℚ) :=
  anchors.map (fun a => (a.x + rect.1, a.y + rect.2))

/-- Number of `cacCurrentLine` lines on the layer. -/
def currentLineCount (st : EditorState) : ℕ :=
  (st.lineTable.filter (fun kv => kv.2.inLayer && kv.2.name == "cacCurrentLine")).length

/-- A one-anchor test template. -/
def tplA : IPidShape :=
  { name := "A", path := "", height := 10, width := 10, kind := PIDIconType.valve,
    anchors := [⟨AnchorKind.inOut, 0, 0⟩] }

/-- A document whose single connection has an unresolvable start id. -/
def D0 : List IDtoPidShape := [⟨tplA, 0, 0, 1, [⟨[0, 0, 1, 1, 2, 2, 3, 3], 0, 99, 0⟩]⟩]

/-- A two-shape document: shape 1 starts a connection ending on shape 2. -/
def D1 : List IDtoPidShape :=
  [⟨tplA, 0, 0, 1, []⟩,
   ⟨tplA, 50, 0, 2, [⟨[0, 0, 25, 0, 25, 0, 50, 0], 0, 1, 0⟩]⟩]

/-! ### General list lemmas for the find-then-mutate pattern -/

theorem modifyFirst_map_of_invariant {α β : Type} (p : α → Bool) (f : α → α) (g : α → β)
    (h : ∀ a, g (f a) = g a) : ∀ l : List α, (modifyFirst p f l).map g = l.map g := by
  intro l
  induction l with
  | nil => rfl
  | cons a as ih => cases hpa : p a <;> simp [modifyFirst, hpa, h, ih]

theorem modifyFirst_map_comm {α β : Type} (p : α → Bool) (q : β → Bool) (f : α → α)
    (fb : β → β) (g : α → β) (hp : ∀ a, p a = q (g a)) (hf : ∀ a, g (f a) = fb (g a)) :
    ∀ l : List α, (modifyFirst p f l).map g = modifyFirst q fb (l.map g) := by
  intro l
  induction l with
  | nil => rfl
  | cons a as ih =>
      have hq : q (g a) = p a := (hp a).symm
      cases hpa : p a <;>
        simp [modifyFirst, hpa, hq.trans hpa, hf, ih]

theorem mem_modifyFirst {α : Type} (p : α → Bool) (f : α → α) :
    ∀ l : List α, ∀ b ∈ modifyFirst p f l, b ∈ l ∨ ∃ a ∈ l, b = f a := by
  intro l
  induction l with
  | nil => intro b hb; cases hb
  | cons a as ih =>
      intro b hb
      cases hpa : p a <;> rw [modifyFirst] at hb <;> simp only [hpa] at hb
      · rcases (List.mem_cons).mp hb with h | h
        · left; simp [h]
        · rcases ih b h with h2 | ⟨a2, ha2, rfl⟩
          · left; simp [h2]
          · right; exact ⟨a2, by simp [ha2], rfl⟩
      · rcases (List.mem_cons).mp hb with h | h
        · right; exact ⟨a, by simp, h⟩
        · left; simp [h]

theorem modifyFirst_append {α : Type} (p : α → Bool) (f : α → α) (l1 : List α) (a : α)
    (l2 : List α) (h1 : ∀ x ∈ l1, p x = false) (ha : p a = true) :
    modifyFirst p f (l1 ++ a :: l2) = l1 ++ f a :: l2 := by
  induction l1 with
  | nil => simp [modifyFirst, ha]
  | cons x xs ih =>
      have hx := h1 x (by simp)
      simp only [List.cons_append, modifyFirst, hx]
      simp [ih (fun y hy => h1 y (by simp [hy]))]

theorem find?_map_proj {α β : Type} (g : α → β) (p : β → Bool) :
    ∀ l : List α, (l.map g).find? p = (l.find? (fun a => p (g a))).map g := by
  intro l
  induction l with
  | nil => rfl
  | cons a as ih => cases hpa : p (g a) <;> simp [List.find?_cons, hpa, ih]

theorem foldl_hom {σ τ A : Type} (g : σ → τ) (step : σ → A → σ) (step2 : τ → A → τ)
    (h : ∀ s a, g (step s a) = step2 (g s) a) :
    ∀ (l : List A) (s : σ), g (l.foldl step s) = l.foldl step2 (g s) := by
  intro l
  induction l with
  | nil => intro s; rfl
  | cons a as ih => intro s; rw [List.foldl_cons, List.foldl_cons, ih, h]

theorem foldl_preserve {σ A : Type} (P : σ → Prop) (step : σ → A → σ)
    (h : ∀ s a, P s → P (step s a)) :
    ∀ (l : List A) (s : σ), P s → P (l.foldl step s) := by
  intro l
  induction l with
  | nil => intro s hs; exact hs
  | cons a as ih => intro s hs; exact ih _ (h s a hs)

theorem filter_eq_nil_of_find?_none {α : Type} (p : α → Bool) :
    ∀ l : List α, l.find? p = none → l.filter p = [] := by
  intro l
  induction l with
  | nil => intro _; rfl
  | cons a as ih =>
      intro h
      cases hpa : p a
      · rw [List.find?_cons_of_neg _ (by simp [hpa])] at h
        simp [List.filter_cons, hpa, ih h]
      · rw [List.find?_cons_of_pos _ hpa] at h
        cases h

/-! ### C1: the orthogonal routing rule -/

/-- C1: `recalculateTheLine` maps a line starting at `(x0,y0)` and a target
`(x1,y1)` to exactly the eight-number staircase
`[x0,y0, mx,y0, mx,y1, x1,y1]` with `mx = (x0+x1)/2`; in particular
start `(0,0)`, end `(10,20)` gives `[0,0, 5,0, 5,20, 10,20]`. -/
theorem recalculateTheLine_route :
    (∀ (x0 y0 x1 y1 : ℚ) (rest : List ℚ),
        recalculateTheLine (x0 :: y0 :: rest) (x1, y1)
          = [x0, y0, (x0 + x1) / 2, y0, (x0 + x1) / 2, y1, x1, y1])
    ∧ recalculateTheLine [0, 0] (10, 20) = [0, 0, 5, 0, 5, 20, 10, 20] := by
  constructor
  · intro x0 y0 x1 y1 rest; rfl
  · show recalculateTheLine [0, 0] (10, 20) = [0, 0, 5, 0, 5, 20, 10, 20]
    unfold recalculateTheLine
    norm_num

/-! ### C5: the asymmetric move-update rules -/

/-- C5 counterexample: the start-move rule does not in general leave the
vertical segment's x in place.  One start-move frame on the centered
staircase `[0,0,5,0,5,20,10,20]` yields the reachable non-centered line
`[2,3,5,3,5,20,10,20]` (first conjunct); the next start-move frame on that
line recomputes `middleX = (2+10)/2 = 6` and the vertical segment moves from
5 to 6 (second conjunct), so the route is not the claimed
`[newStart, 5, …]` with the pre-move vertical kept (third conjunct). -/
theorem dragmove_start_moves_vertical_cex :
    dragmoveUpdate (2, 3) ⟨0, 0, ConnType.start⟩ [0, 0, 5, 0, 5, 20, 10, 20]
        = [2, 3, 5, 3, 5, 20, 10, 20]
    ∧ dragmoveUpdate (4, 3) ⟨0, 0, ConnType.start⟩ [2, 3, 5, 3, 5, 20, 10, 20]
        = [4, 3, 6, 3, 6, 20, 10, 20]
    ∧ dragmoveUpdate (4, 3) ⟨0, 0, ConnType.start⟩ [2, 3, 5, 3, 5, 20, 10, 20]
        ≠ [4, 3, 5, 3, 5, 20, 10, 20] := by
  refine ⟨?_, ?_, ?_⟩
  · show ([2, 3, (0 + 10) / 2, 3, (0 + 10) / 2, 20, 10, 20] : List ℚ)
        = [2, 3, 5, 3, 5, 20, 10, 20]
    norm_num
  · show ([4, 3, (2 + 10) / 2, 3, (2 + 10) / 2, 20, 10, 20] : List ℚ)
        = [4, 3, 6, 3, 6, 20, 10, 20]
    norm_num
  · show ([4, 3, (2 + 10) / 2, 3, (2 + 10) / 2, 20, 10, 20] : List ℚ)
        ≠ [4, 3, 5, 3, 5, 20, 10, 20]
    norm_num

/-- C5 amended: on any eight-point route the start-move rule keeps the end
point `(ex,ey)` and replaces the start with `g`, but rebuilds the vertical
segment at `(sx+ex)/2` computed from the pre-move first point and end point
(first conjunct); this equals the pre-move vertical x exactly on centered
staircase lines, where the claimed route `[g, mx, g.y, mx, ey, ex, ey]`
results (second conjunct).  A move of the end-anchor's shape recomputes the
whole route from the current start and `g` via `recalculateTheLine`. -/
theorem dragmove_rules (sx sy a b cc dd ex ey mx gx gy : ℚ) (lid ai : ℕ)
    (hmx : mx = (sx + ex) / 2) :
    dragmoveUpdate (gx, gy) ⟨lid, ai, ConnType.start⟩ [sx, sy, a, b, cc, dd, ex, ey]
        = [gx, gy, (sx + ex) / 2, gy, (sx + ex) / 2, ey, ex, ey]
    ∧ dragmoveUpdate (gx, gy) ⟨lid, ai, ConnType.start⟩ [sx, sy, mx, sy, mx, ey, ex, ey]
        = [gx, gy, mx, gy, mx, ey, ex, ey]
    ∧ dragmoveUpdate (gx, gy) ⟨lid, ai, ConnType.endC⟩ [sx, sy, mx, sy, mx, ey, ex, ey]
        = recalculateTheLine [sx, sy, mx, sy, mx, ey, ex, ey] (gx, gy)
    ∧ recalculateTheLine [sx, sy, mx, sy, mx, ey, ex, ey] (gx, gy)
        = [sx, sy, (sx + gx) / 2, sy, (sx + gx) / 2, gy, gx, gy] := by
  subst hmx
  exact ⟨rfl, rfl, rfl, rfl⟩

theorem dragmove_rules_witness :
    dragmoveUpdate (2, 3) ⟨0, 0, ConnType.start⟩ [0, 0, 1, 7, 8, 9, 10, 20]
        = [2, 3, (0 + 10) / 2, 3, (0 + 10) / 2, 20, 10, 20]
    ∧ dragmoveUpdate (2, 3) ⟨0, 0, ConnType.start⟩ [0, 0, 5, 0, 5, 20, 10, 20]
        = [2, 3, 5, 3, 5, 20, 10, 20]
    ∧ dragmoveUpdate (2, 3) ⟨0, 0, ConnType.endC⟩ [0, 0, 5, 0, 5, 20, 10, 20]
        = recalculateTheLine [0, 0, 5, 0, 5, 20, 10, 20] (2, 3)
    ∧ recalculateTheLine [0, 0, 5, 0, 5, 20, 10, 20] (2, 3)
        = [0, 0, (0 + 2) / 2, 0, (0 + 2) / 2, 3, 2, 3] :=
  dragmove_rules 0 0 1 7 8 9 10 20 5 2 3 0 0 (by norm_num)

/-! ### C3: no anchor-index validation in connect -/

/-- C3 counterexample: with an anchor index (5) far out of range for a
one-anchor template, the connect primitive still appends a connection record
carrying that very index — nothing signals an error and nothing is clamped,
refuting the claim that no Connection is appended on an out-of-range index. -/
theorem addConnectorToPath_out_of_range_appends :
    tplA.anchors.length = 1
    ∧ (addConnectorToPath ⟨⟨tplA, 0, 0, 1, []⟩, []⟩ 0 defaultLine 5 ConnType.endC).dto.c ≠ []
    ∧ (addConnectorToPath ⟨⟨tplA, 0, 0, 1, []⟩, []⟩ 0 defaultLine 5 ConnType.endC).dto.c.map
        (fun cr => cr.eai) = [5] := by
  refine ⟨rfl, ?_, rfl⟩
  decide

/-- C3 amended: `#addConnectorToPath` performs no validation of the anchor
index at all: for every index, in range or not, the connector is appended with
the index stored unmodified (never clamped), the `end` variant also appends
the serialized record, and no failure is signalled. -/
theorem addConnectorToPath_no_validation (p : PlacedShape) (lid : ℕ) (ln : Line) (ai : ℕ) :
    (addConnectorToPath p lid ln ai ConnType.endC).connectors
        = p.connectors ++ [⟨lid, ai, ConnType.endC⟩]
    ∧ (addConnectorToPath p lid ln ai ConnType.endC).dto.c
        = p.dto.c ++ [⟨ln.points, ln.cacStartAnchorIndex, ln.cacStartPidShapeId, ai⟩]
    ∧ (addConnectorToPath p lid ln ai ConnType.start).connectors
        = p.connectors ++ [⟨lid, ai, ConnType.start⟩]
    ∧ (addConnectorToPath p lid ln ai ConnType.start).dto = p.dto :=
  ⟨rfl, rfl, rfl, rfl⟩

/-! ### C7: anchor geometry -/

/-- C7: selecting a shape yields one marker per template anchor; when the
path's local client-rect origin coincides with the group position (offset 0,
the case of templates drawn from the origin) the i-th marker sits at
`(x + anchor.x, y + anchor.y)`; and moving the shape by `(dx,dy)` translates
every marker by exactly `(dx,dy)` whatever the local offset is. -/
theorem createAnchorShapes_spec (t : IPidShape) (x y lx ly dx dy : ℚ) :
    (createAnchorShapes t.anchors (clientRectOf (x, y) (lx, ly))).length = t.anchors.length
    ∧ ((lx, ly) = ((0 : ℚ), (0 : ℚ)) →
        createAnchorShapes t.anchors (clientRectOf (x, y) (lx, ly))
          = t.anchors.map (fun a => (x + a.x, y + a.y)))
    ∧ createAnchorShapes t.anchors (clientRectOf (x + dx, y + dy) (lx, ly))
        = (createAnchorShapes t.anchors (clientRectOf (x, y) (lx, ly))).map
            (fun q => (q.1 + dx, q.2 + dy)) := by
  refine ⟨by simp [createAnchorShapes], ?_, ?_⟩
  · intro h
    rw [Prod.mk.injEq] at h
    obtain ⟨h1, h2⟩ := h
    subst h1; subst h2
    unfold createAnchorShapes clientRectOf
    refine List.map_congr_left ?_
    intro a _
    simp [Prod.ext_iff]
    constructor <;> ring
  · unfold createAnchorShapes clientRectOf
    rw [List.map_map]
    refine List.map_congr_left ?_
    intro a _
    simp [Prod.ext_iff, Function.comp]
    constructor <;> ring

theorem createAnchorShapes_spec_witness :
    (createAnchorShapes emptyEnd.anchors (clientRectOf (3, 4) (0, 0))).length
        = emptyEnd.anchors.length
    ∧ createAnchorShapes emptyEnd.anchors (clientRectOf (3, 4) (0, 0))
        = emptyEnd.anchors.map (fun a => (3 + a.x, 4 + a.y))
    ∧ createAnchorShapes emptyEnd.anchors (clientRectOf (3 + 1, 4 + 2) (0, 0))
        = (createAnchorShapes emptyEnd.anchors (clientRectOf (3, 4) (0, 0))).map
            (fun q => (q.1 + 1, q.2 + 2)) :=
  ⟨(createAnchorShapes_spec emptyEnd 3 4 0 0 1 2).1,
   (createAnchorShapes_spec emptyEnd 3 4 0 0 1 2).2.1 rfl,
   (createAnchorShapes_spec emptyEnd 3 4 0 0 1 2).2.2⟩

/-! ### C10: default random id -/

/-- C10: the default id `Math.floor(random * 1000000)` always lies in
`[0, 999999]`; `addShape` registers whatever id it is given with no
uniqueness check, so adding twice with the same random sample produces two
instances carrying the same id (collision possible). -/
theorem addShape_default_id :
    (∀ r : ℚ, 0 ≤ r → r < 1 → 0 ≤ defaultShapeId r ∧ defaultShapeId r ≤ 999999)
    ∧ (∀ (st : EditorState) (t : IPidShape) (x y : ℚ) (i : ℤ),
        (addShape st t x y i).shapes.map (fun p => p.dto.id)
          = st.shapes.map (fun p => p.dto.id) ++ [i])
    ∧ (addShape (addShape emptyState tplA 0 0 (defaultShapeId (1 / 2))) tplA 0 0
          (defaultShapeId (1 / 2))).shapes.map (fun p => p.dto.id) = [500000, 500000] := by
  have h5 : defaultShapeId (2⁻¹ : ℚ) = 500000 := by
    unfold defaultShapeId
    norm_num
  refine ⟨?_, ?_, by simp [addShape, emptyState, h5]⟩
  · intro r h0 h1
    constructor
    · refine Int.le_floor.mpr ?_
      push_cast
      exact mul_nonneg h0 (by norm_num)
    · have hlt : (⌊r * 1000000⌋ : ℤ) < 1000000 := by
        rw [Int.floor_lt]
        push_cast
        nlinarith
      unfold defaultShapeId
      omega
  · intro st t x y i
    simp [addShape]

theorem addShape_default_id_witness :
    (0 : ℚ) ≤ 1 / 2 ∧ (1 : ℚ) / 2 < 1
    ∧ 0 ≤ defaultShapeId (1 / 2) ∧ defaultShapeId (1 / 2) ≤ 999999 :=
  ⟨by norm_num, by norm_num,
   (addShape_default_id.1 (1 / 2) (by norm_num) (by norm_num)).1,
   (addShape_default_id.1 (1 / 2) (by norm_num) (by norm_num)).2⟩

/-! ### C9: at most one in-progress line -/

/-- A shape plus a current line started from its anchor 0, built through the
editor operations themselves. -/
def stW : EditorState := anchorMouseDown (addShape emptyState tplA 0 0 1) 1 0 (0, 0)

/-- The current line of `stW`. -/
def lineW : Line := ⟨[0, 0], "cacCurrentLine", 0, 1, true⟩

/-- C9: pressing down on an anchor while a `cacCurrentLine` exists leaves the
editor state untouched (no second line is created), and the anchor handler
preserves the at-most-one-current-line invariant. -/
theorem anchorMouseDown_noop (st : EditorState) (sid : ℤ) (ai : ℕ) (pos : ℚ × ℚ) :
    ((findCurrentLine st).isSome = true → anchorMouseDown st sid ai pos = st)
    ∧ (currentLineCount st ≤ 1 → currentLineCount (anchorMouseDown st sid ai pos) ≤ 1) := by
  cases h : findCurrentLine st with
  | some v =>
      constructor
      · intro _; simp [anchorMouseDown, h]
      · intro h2; simpa [anchorMouseDown, h] using h2
  | none =>
      constructor
      · intro h2; simp at h2
      · intro _
        have hnil : st.lineTable.filter
            (fun kv => kv.2.inLayer && (kv.2.name == "cacCurrentLine")) = [] :=
          filter_eq_nil_of_find?_none _ st.lineTable h
        simp [anchorMouseDown, h, currentLineCount, List.filter_append, hnil]

theorem anchorMouseDown_noop_witness :
    anchorMouseDown stW 1 0 (5, 5) = stW
    ∧ currentLineCount (anchorMouseDown stW 1 0 (5, 5)) ≤ 1 :=
  ⟨(anchorMouseDown_noop stW 1 0 (5, 5)).1 (by decide),
   (anchorMouseDown_noop stW 1 0 (5, 5)).2 (by decide)⟩

/-! ### C4: deletion cascade -/

theorem destroyLine_cons (kv : ℕ × Line) (t : List (ℕ × Line)) (lid : ℕ) :
    destroyLine (kv :: t) lid
      = (if kv.1 == lid then (kv.1, { kv.2 with inLayer := false }) else kv) :: destroyLine t lid :=
  rfl

theorem lookupLine_cons (kv : ℕ × Line) (t : List (ℕ × Line)) (k : ℕ) :
    lookupLine (kv :: t) k = if kv.1 == k then some kv.2 else lookupLine t k := by
  cases h : (kv.1 == k) <;> simp [lookupLine, List.find?_cons, h]

/-- Destroying a line id only toggles the `inLayer` flag of that entry. -/
theorem lookupLine_destroy (lid k : ℕ) :
    ∀ t : List (ℕ × Line),
      lookupLine (destroyLine t lid) k
        = (lookupLine t k).map
            (fun ln => if k == lid then { ln with inLayer := false } else ln) := by
  intro t
  induction t with
  | nil => rfl
  | cons kv t ih =>
      rw [destroyLine_cons]
      cases hl : (kv.1 == lid) <;> cases hk : (kv.1 == k)
      · simp only [hl, if_true, if_false, Bool.false_eq_true]
        rw [lookupLine_cons, lookupLine_cons]
        simp [hk, ih]
      · have hek : kv.1 = k := by simpa using hk
        subst hek
        simp only [hl, Bool.false_eq_true, if_false]
        rw [lookupLine_cons, lookupLine_cons]
        simp [hl]
      · simp only [hl, if_true]
        rw [lookupLine_cons, lookupLine_cons]
        simp [hk, ih]
      · have hek : kv.1 = k := by simpa using hk
        have hel : kv.1 = lid := by simpa using hl
        subst hek
        subst hel
        simp only [if_true]
        rw [lookupLine_cons, lookupLine_cons]
        simp

theorem lookup_destroy_self_false (lid : ℕ) (t : List (ℕ × Line)) :
    ∀ ln, lookupLine (destroyLine t lid) lid = some ln → ln.inLayer = false := by
  intro ln h
  rw [lookupLine_destroy] at h
  cases h0 : lookupLine t lid with
  | none => rw [h0] at h; cases h
  | some val =>
      rw [h0] at h
      simp at h
      rw [← h]

theorem lookup_destroy_preserve (lid k : ℕ) (t : List (ℕ × Line))
    (hp : ∀ ln, lookupLine t k = some ln → ln.inLayer = false) :
    ∀ ln, lookupLine (destroyLine t lid) k = some ln → ln.inLayer = false := by
  intro ln h
  rw [lookupLine_destroy] at h
  cases h0 : lookupLine t k with
  | none => rw [h0] at h; cases h
  | some val =>
      rw [h0] at h
      cases hkl : (k == lid) <;> simp [hkl] at h
      · rw [← h]; exact hp val h0
      · rw [← h]

/-- After folding `destroyLine` over a connector list, every line id named by
one of those connectors resolves (if at all) to a line off the layer. -/
theorem destroyFold (L : List IConnector) :
    ∀ (t : List (ℕ × Line)) (c : IConnector), c ∈ L →
      ∀ ln, lookupLine (L.foldl (fun t2 x => destroyLine t2 x.lineId) t) c.lineId = some ln →
        ln.inLayer = false := by
  induction L with
  | nil => intro t c hc; cases hc
  | cons x L2 ih =>
      intro t c hc ln h
      rw [List.foldl_cons] at h
      rcases List.mem_cons.mp hc with rfl | hc2
      · have base : ∀ ln2, lookupLine (destroyLine t c.lineId) c.lineId = some ln2 →
            ln2.inLayer = false := lookup_destroy_self_false c.lineId t
        have hkeep := foldl_preserve
          (fun tt => ∀ ln2, lookupLine tt c.lineId = some ln2 → ln2.inLayer = false)
          (fun t2 x => destroyLine t2 x.lineId)
          (fun tt y hy => lookup_destroy_preserve y.lineId c.lineId tt hy)
          L2 (destroyLine t c.lineId) base
        exact hkeep ln h
      · exact ih (destroyLine t x.lineId) c hc2 ln h

/-- C4 counterexample: in the two-shape document `D1` (A with id 1 starts a
connection ending on B with id 2), deleting A (index 0) and exporting still
yields B carrying one connection record whose `sid` is 1 — B does not end up
with zero connections and A's id remains referenced. -/
theorem deleteShape_dangling :
    (exportJson (deleteShape (importJson D1) 0)).map (fun d => d.id) = [2]
    ∧ (exportJson (deleteShape (importJson D1) 0)).map (fun d => d.c.length) = [1]
    ∧ (exportJson (deleteShape (importJson D1) 0)).map
        (fun d => d.c.map (fun cr => cr.sid)) = [[1]] := by
  refine ⟨by decide, by decide, by decide⟩

/-- C4 amended: deleting a shape removes it from the layer and destroys (takes
off the layer) the line of every connector stored on it; all other placed
shapes survive verbatim — in particular a connection record stored on a
surviving shape whose `sid` references the deleted shape's id is not removed
and still appears in a subsequent export. -/
theorem deleteShape_spec (st : EditorState) (si : ℕ) (p : PlacedShape)
    (h : st.shapes[si]? = some p) :
    (deleteShape st si).shapes = st.shapes.eraseIdx si
    ∧ ∀ c ∈ p.connectors, ∀ ln,
        lookupLine (deleteShape st si).lineTable c.lineId = some ln → ln.inLayer = false := by
  unfold deleteShape
  rw [h]
  exact ⟨rfl, fun c hc ln h2 => destroyFold p.connectors st.lineTable c hc ln h2⟩

/-- The state of shape A inside `importJson D1` (its start connector attached). -/
def pA : PlacedShape := ⟨⟨tplA, 0, 0, 1, []⟩, [⟨0, 0, ConnType.start⟩]⟩

theorem deleteShape_spec_witness :
    (importJson D1).shapes[0]? = some pA
    ∧ ((deleteShape (importJson D1) 0).shapes = (importJson D1).shapes.eraseIdx 0
      ∧ ∀ c ∈ pA.connectors, ∀ ln,
          lookupLine (deleteShape (importJson D1) 0).lineTable c.lineId = some ln →
            ln.inLayer = false) :=
  ⟨by decide, deleteShape_spec (importJson D1) 0 pA (by decide)⟩

/-! ### Import simulation at the dto level (towards C2 and C6) -/

/-- The dto an imported entry starts with: `addShape` resets `c` to `[]`. -/
def freshDto (d : IDtoPidShape) : IDtoPidShape := ⟨d.s, d.x, d.y, d.id, []⟩

def mkFresh (d : IDtoPidShape) : PlacedShape := ⟨freshDto d, []⟩

/-- Whether a stored start id resolves against a list of instance ids. -/
def resolves (ids : List ℤ) (sid : ℤ) : Bool := (ids.find? (fun i => i == sid)).isSome

theorem find?_id_isSome (ds : List IDtoPidShape) (s : ℤ) :
    (ds.find? (fun e => e.id == s)).isSome = resolves (ds.map (fun e => e.id)) s := by
  unfold resolves
  rw [find?_map_proj]
  cases h : ds.find? (fun e => e.id == s) <;> simp [h]

/-- The effect of one `processConn` on the dtos alone. -/
def dtoStep (ds : List IDtoPidShape) (d : IDtoPidShape) (conn : ConnRecord) : List IDtoPidShape :=
  if (ds.find? (fun e => e.id == conn.sid)).isSome then
    modifyFirst (fun e => e.id == d.id) (fun e => { e with c := e.c ++ [conn] }) ds
  else ds

theorem processConnCore_shapes (st : EditorState) (endId : ℤ) (conn : ConnRecord) :
    (processConnCore st endId conn).shapes
      = modifyFirst (fun p => p.dto.id == endId)
          (fun p => addConnectorToPath p st.nextLineId
            ⟨conn.l, "cacConnectorTwoPidShape", conn.sai, conn.sid, true⟩ conn.eai ConnType.endC)
          (modifyFirst (fun p => p.dto.id == conn.sid)
            (fun p => addConnectorToPath p st.nextLineId
              ⟨conn.l, "cacConnectorTwoPidShape", conn.sai, conn.sid, true⟩ conn.sai ConnType.start)
            st.shapes) := rfl

theorem processConnCore_table (st : EditorState) (endId : ℤ) (conn : ConnRecord) :
    (processConnCore st endId conn).lineTable
      = st.lineTable ++
        [(st.nextLineId, ⟨conn.l, "cacConnectorTwoPidShape", conn.sai, conn.sid, true⟩)] := rfl

theorem processConnCore_next (st : EditorState) (endId : ℤ) (conn : ConnRecord) :
    (processConnCore st endId conn).nextLineId = st.nextLineId + 1 := rfl

theorem processConn_dtos (st : EditorState) (d : IDtoPidShape) (conn : ConnRecord) :
    (processConn st d conn).shapes.map (fun p => p.dto)
      = dtoStep (st.shapes.map (fun p => p.dto)) d conn := by
  have hiso : ((st.shapes.map (fun p => p.dto)).find? (fun e => e.id == conn.sid)).isSome
      = (st.shapes.find? (fun p => p.dto.id == conn.sid)).isSome := by
    rw [find?_map_proj]
    cases h : st.shapes.find? (fun p => p.dto.id == conn.sid) <;> simp [h]
  cases hs : (st.shapes.find? (fun p => p.dto.id == conn.sid)).isSome
  · have h1 : processConn st d conn = st := by
      unfold processConn
      rw [if_neg (by rw [hs]; exact Bool.false_ne_true)]
    have h2 : dtoStep (st.shapes.map (fun p => p.dto)) d conn
        = st.shapes.map (fun p => p.dto) := by
      unfold dtoStep
      rw [if_neg (by rw [hiso, hs]; exact Bool.false_ne_true)]
    rw [h1, h2]
  · have h1 : processConn st d conn = processConnCore st d.id conn := by
      unfold processConn
      rw [if_pos (by rw [hs])]
    have h2 : dtoStep (st.shapes.map (fun p => p.dto)) d conn
        = modifyFirst (fun e => e.id == d.id) (fun e => { e with c := e.c ++ [conn] })
            (st.shapes.map (fun p => p.dto)) := by
      unfold dtoStep
      rw [if_pos (by rw [hiso, hs])]
    rw [h1, h2, processConnCore_shapes]
    rw [modifyFirst_map_comm (fun p : PlacedShape => p.dto.id == d.id)
      (fun e : IDtoPidShape => e.id == d.id)
      (fun p : PlacedShape => addConnectorToPath p st.nextLineId
        ⟨conn.l, "cacConnectorTwoPidShape", conn.sai, conn.sid, true⟩ conn.eai ConnType.endC)
      (fun e : IDtoPidShape => { e with c := e.c ++ [conn] })
      (fun p : PlacedShape => p.dto) (fun a => rfl) (fun a => rfl)]
    rw [modifyFirst_map_of_invariant (fun p : PlacedShape => p.dto.id == conn.sid)
      (fun p : PlacedShape => addConnectorToPath p st.nextLineId
        ⟨conn.l, "cacConnectorTwoPidShape", conn.sai, conn.sid, true⟩ conn.sai ConnType.start)
      (fun p : PlacedShape => p.dto) (fun a => rfl)]

theorem importJson_eq (data : List IDtoPidShape) :
    importJson data
      = data.foldl (fun st d => d.c.foldl (fun st2 conn => processConn st2 d conn) st)
          (data.foldl (fun st d => addShape st d.s d.x d.y d.id) emptyState) := rfl

theorem initFold (data : List IDtoPidShape) :
    ∀ l : List PlacedShape,
      data.foldl (fun st d => addShape st d.s d.x d.y d.id) ⟨l, [], 0⟩
        = ⟨l ++ data.map mkFresh, [], 0⟩ := by
  induction data with
  | nil => intro l; simp
  | cons d ds ih =>
      intro l
      rw [List.foldl_cons]
      have h1 : addShape ⟨l, [], 0⟩ d.s d.x d.y d.id = ⟨l ++ [mkFresh d], [], 0⟩ := rfl
      rw [h1, ih (l ++ [mkFresh d])]
      simp

theorem importInit_eq (data : List IDtoPidShape) :
    data.foldl (fun st d => addShape st d.s d.x d.y d.id) emptyState
      = ⟨data.map mkFresh, [], 0⟩ := by
  simpa using initFold data []

theorem import_sim (data : List IDtoPidShape) :
    (importJson data).shapes.map (fun p => p.dto)
      = data.foldl (fun ds d => d.c.foldl (fun ds2 c => dtoStep ds2 d c) ds)
          (data.map freshDto) := by
  rw [importJson_eq, importInit_eq]
  have hstep : ∀ (st : EditorState) (d : IDtoPidShape),
      (d.c.foldl (fun st2 conn => processConn st2 d conn) st).shapes.map (fun p => p.dto)
        = d.c.foldl (fun ds c => dtoStep ds d c) (st.shapes.map (fun p => p.dto)) := by
    intro st d
    exact foldl_hom (fun st2 : EditorState => st2.shapes.map (fun p => p.dto))
      (fun st2 conn => processConn st2 d conn) (fun ds c => dtoStep ds d c)
      (fun s a => processConn_dtos s d a) d.c st
  rw [foldl_hom (fun st : EditorState => st.shapes.map (fun p => p.dto))
    (fun st d => d.c.foldl (fun st2 conn => processConn st2 d conn) st)
    (fun ds d => d.c.foldl (fun ds2 c => dtoStep ds2 d c) ds)
    hstep data ⟨data.map mkFresh, [], 0⟩]
  congr 1
  rw [show (⟨data.map mkFresh, [], 0⟩ : EditorState).shapes = data.map mkFresh from rfl]
  rw [List.map_map]
  rfl

theorem dtoFold_inner (ids0 : List ℤ) (d : IDtoPidShape) (l1 l2 : List IDtoPidShape)
    (hl1 : ∀ x ∈ l1, (x.id == d.id) = false) :
    ∀ (cs : List ConnRecord) (dm : IDtoPidShape), dm.id = d.id →
      (l1 ++ dm :: l2).map (fun e => e.id) = ids0 →
      cs.foldl (fun ds c => dtoStep ds d c) (l1 ++ dm :: l2)
        = l1 ++ { dm with c := dm.c ++ cs.filter (fun conn => resolves ids0 conn.sid) } :: l2 := by
  intro cs
  induction cs with
  | nil =>
      intro dm hdm hids
      simp only [List.foldl_nil, List.filter_nil, List.append_nil]
  | cons conn cs2 ih =>
      intro dm hdm hids
      rw [List.foldl_cons]
      have hcheck : ((l1 ++ dm :: l2).find? (fun e => e.id == conn.sid)).isSome
          = resolves ids0 conn.sid := by
        rw [find?_id_isSome, hids]
      cases hres : resolves ids0 conn.sid
      · have hskip : dtoStep (l1 ++ dm :: l2) d conn = l1 ++ dm :: l2 := by
          unfold dtoStep
          rw [if_neg (by rw [hcheck, hres]; exact Bool.false_ne_true)]
        rw [hskip, ih dm hdm hids]
        simp [List.filter_cons, hres]
      · have hstep : dtoStep (l1 ++ dm :: l2) d conn
            = l1 ++ { dm with c := dm.c ++ [conn] } :: l2 := by
          unfold dtoStep
          rw [if_pos (by rw [hcheck, hres])]
          exact modifyFirst_append _ _ l1 dm l2 hl1 (by simp [hdm])
        have hids2 : (l1 ++ { dm with c := dm.c ++ [conn] } :: l2).map (fun e => e.id)
            = ids0 := by
          simpa using hids
        rw [hstep, ih { dm with c := dm.c ++ [conn] } (by simpa using hdm) hids2]
        simp [List.filter_cons, hres, List.append_assoc]

theorem dtoFold_outer (ids0 : List ℤ) (hn : ids0.Nodup) :
    ∀ (rest pre : List IDtoPidShape),
      (pre ++ rest).map (fun e => e.id) = ids0 →
      rest.foldl (fun ds d => d.c.foldl (fun ds2 c => dtoStep ds2 d c) ds)
          (pre ++ rest.map freshDto)
        = pre ++ rest.map (fun d => { d with c := d.c.filter (fun conn => resolves ids0 conn.sid) }) := by
  intro rest
  induction rest with
  | nil => intro pre h; simp
  | cons d rest2 ih =>
      intro pre hids
      rw [List.foldl_cons, List.map_cons, List.map_cons]
      have hd_notin : ∀ x ∈ pre, (x.id == d.id) = false := by
        intro x hx
        have hn2 : ((pre ++ d :: rest2).map (fun e => e.id)).Nodup := by
          rw [hids]; exact hn
        rw [List.map_append] at hn2
        have hdisj := List.disjoint_of_nodup_append hn2
        have hne : x.id ≠ d.id := by
          intro he
          exact hdisj (List.mem_map_of_mem _ hx) (by rw [he]; simp)
        simpa using hne
      have hfresh_map : (pre ++ freshDto d :: rest2.map freshDto).map (fun e => e.id)
          = ids0 := by
        simpa [freshDto] using hids
      have hinner := dtoFold_inner ids0 d pre (rest2.map freshDto) hd_notin
        d.c (freshDto d) rfl hfresh_map
      rw [hinner]
      have heq : ({ freshDto d with c := (freshDto d).c ++ d.c.filter (fun conn => resolves ids0 conn.sid) } : IDtoPidShape)
          = { d with c := d.c.filter (fun conn => resolves ids0 conn.sid) } := rfl
      rw [heq]
      have hids3 : List.map (fun e : IDtoPidShape => e.id)
          ((pre ++ [{ d with c := d.c.filter (fun conn => resolves ids0 conn.sid) }]) ++ rest2)
          = ids0 := by
        simpa using hids
      have hrec := ih (pre ++ [{ d with c := d.c.filter (fun conn => resolves ids0 conn.sid) }]) hids3
      simp only [List.append_assoc, List.singleton_append] at hrec
      exact hrec

theorem import_dtos (data : List IDtoPidShape)
    (hn : (data.map (fun e => e.id)).Nodup) :
    (importJson data).shapes.map (fun p => p.dto)
      = data.map (fun d => { d with c := d.c.filter (fun conn => resolves (data.map (fun e => e.id)) conn.sid) }) := by
  rw [import_sim]
  have h := dtoFold_outer (data.map (fun e => e.id)) hn data [] (by simp)
  simpa using h

/-! ### The export invariant: stored records mirror the live line points -/

/-- Every shape's stored records carry exactly the points of its `end`
connector lines; under this invariant `#export`'s refresh is the identity. -/
def Aligned (st : EditorState) : Prop :=
  ∀ p ∈ st.shapes, endPointsOf st.lineTable p = p.dto.c.map (fun cr => cr.l)

def WF (st : EditorState) : Prop :=
  (∀ kv ∈ st.lineTable, kv.1 < st.nextLineId)
  ∧ (∀ p ∈ st.shapes, ∀ c ∈ p.connectors, c.lineId < st.nextLineId)
  ∧ Aligned st

theorem connType_beq_start : (ConnType.start == ConnType.endC) = false := by decide

theorem connType_beq_end : (ConnType.endC == ConnType.endC) = true := by decide

theorem connectors_addConn (p : PlacedShape) (lid : ℕ) (ln : Line) (ai : ℕ) (ct : ConnType) :
    (addConnectorToPath p lid ln ai ct).connectors = p.connectors ++ [⟨lid, ai, ct⟩] := by
  cases ct <;> rfl

theorem dto_addConn_start (p : PlacedShape) (lid : ℕ) (ln : Line) (ai : ℕ) :
    (addConnectorToPath p lid ln ai ConnType.start).dto = p.dto := rfl

theorem dto_addConn_end (p : PlacedShape) (lid : ℕ) (ln : Line) (ai : ℕ) :
    (addConnectorToPath p lid ln ai ConnType.endC).dto
      = { p.dto with c := p.dto.c ++ [⟨ln.points, ln.cacStartAnchorIndex, ln.cacStartPidShapeId, ai⟩] } := rfl

theorem lookupLine_append_of_ne (t : List (ℕ × Line)) (e : ℕ × Line) (k : ℕ) (h : k ≠ e.1) :
    lookupLine (t ++ [e]) k = lookupLine t k := by
  induction t with
  | nil =>
      show lookupLine [e] k = lookupLine [] k
      rw [lookupLine_cons]
      have he : (e.1 == k) = false := by simp [Ne.symm h]
      rw [he]
      simp
  | cons kv t ih =>
      show lookupLine (kv :: (t ++ [e])) k = lookupLine (kv :: t) k
      rw [lookupLine_cons, lookupLine_cons, ih]

theorem lookupLine_append_self (t : List (ℕ × Line)) (e : ℕ × Line)
    (h : ∀ kv ∈ t, kv.1 ≠ e.1) :
    lookupLine (t ++ [e]) e.1 = some e.2 := by
  induction t with
  | nil =>
      show lookupLine [e] e.1 = _
      rw [lookupLine_cons]
      simp
  | cons kv t ih =>
      show lookupLine (kv :: (t ++ [e])) e.1 = _
      rw [lookupLine_cons]
      have he : (kv.1 == e.1) = false := by simp [h kv (by simp)]
      rw [he]
      simp only [Bool.false_eq_true, if_false]
      exact ih (fun kv2 h2 => h kv2 (by simp [h2]))

theorem endPointsOf_congr (t t2 : List (ℕ × Line)) (p : PlacedShape)
    (h : ∀ c ∈ p.connectors, lookupLine t2 c.lineId = lookupLine t c.lineId) :
    endPointsOf t2 p = endPointsOf t p := by
  unfold endPointsOf
  refine List.map_congr_left ?_
  intro c hc
  rw [h c (List.mem_filter.mp hc).1]

theorem endPointsOf_addConn_start (t : List (ℕ × Line)) (p : PlacedShape)
    (lid : ℕ) (ln : Line) (ai : ℕ) :
    endPointsOf t (addConnectorToPath p lid ln ai ConnType.start) = endPointsOf t p := by
  unfold endPointsOf
  rw [connectors_addConn, List.filter_append]
  simp [List.filter_cons, connType_beq_start]

theorem endPointsOf_addConn_end (t : List (ℕ × Line)) (p : PlacedShape)
    (lid : ℕ) (ln : Line) (ai : ℕ) :
    endPointsOf t (addConnectorToPath p lid ln ai ConnType.endC)
      = endPointsOf t p ++ [((lookupLine t lid).getD defaultLine).points] := by
  unfold endPointsOf
  rw [connectors_addConn, List.filter_append]
  simp [List.filter_cons, connType_beq_end]

theorem processConnCore_WF (st : EditorState) (endId : ℤ) (conn : ConnRecord)
    (h : WF st) : WF (processConnCore st endId conn) := by
  obtain ⟨hkeys, hcids, halign⟩ := h
  refine ⟨?_, ?_, ?_⟩
  · rw [processConnCore_table, processConnCore_next]
    intro kv hkv
    rcases List.mem_append.mp hkv with h1 | h1
    · exact Nat.lt_succ_of_lt (hkeys kv h1)
    · rcases List.mem_singleton.mp h1 with rfl
      exact Nat.lt_succ_self _
  · intro p hp c hc
    rw [processConnCore_next]
    rw [processConnCore_shapes] at hp
    rcases mem_modifyFirst _ _ _ p hp with hp1 | ⟨q, hq, rfl⟩
    · rcases mem_modifyFirst _ _ _ p hp1 with hp2 | ⟨q, hq, rfl⟩
      · exact Nat.lt_succ_of_lt (hcids p hp2 c hc)
      · rw [connectors_addConn] at hc
        rcases List.mem_append.mp hc with h1 | h1
        · exact Nat.lt_succ_of_lt (hcids q hq c h1)
        · rcases List.mem_singleton.mp h1 with rfl
          exact Nat.lt_succ_self _
    · rw [connectors_addConn] at hc
      rcases List.mem_append.mp hc with h1 | h1
      · rcases mem_modifyFirst _ _ _ q hq with hq2 | ⟨q2, hq2, rfl⟩
        · exact Nat.lt_succ_of_lt (hcids q hq2 c h1)
        · rw [connectors_addConn] at h1
          rcases List.mem_append.mp h1 with h2 | h2
          · exact Nat.lt_succ_of_lt (hcids q2 hq2 c h2)
          · rcases List.mem_singleton.mp h2 with rfl
            exact Nat.lt_succ_self _
      · rcases List.mem_singleton.mp h1 with rfl
        exact Nat.lt_succ_self _
  · intro p hp
    rw [processConnCore_shapes] at hp
    rw [processConnCore_table]
    have hlook : ∀ q : PlacedShape, (∀ c ∈ q.connectors, c.lineId < st.nextLineId) →
        endPointsOf (st.lineTable ++
            [(st.nextLineId, ⟨conn.l, "cacConnectorTwoPidShape", conn.sai, conn.sid, true⟩)]) q
          = endPointsOf st.lineTable q := by
      intro q hq
      refine endPointsOf_congr _ _ _ ?_
      intro c hc
      exact lookupLine_append_of_ne st.lineTable _ c.lineId (Nat.ne_of_lt (hq c hc))
    have hnew : lookupLine (st.lineTable ++
        [(st.nextLineId, ⟨conn.l, "cacConnectorTwoPidShape", conn.sai, conn.sid, true⟩)])
          st.nextLineId
        = some ⟨conn.l, "cacConnectorTwoPidShape", conn.sai, conn.sid, true⟩ :=
      lookupLine_append_self st.lineTable _ (fun kv hkv => Nat.ne_of_lt (hkeys kv hkv))
    rcases mem_modifyFirst _ _ _ p hp with hp1 | ⟨q, hq, rfl⟩
    · rcases mem_modifyFirst _ _ _ p hp1 with hp2 | ⟨q, hq, rfl⟩
      · rw [hlook p (hcids p hp2)]
        exact halign p hp2
      · rw [endPointsOf_addConn_start, dto_addConn_start, hlook q (hcids q hq)]
        exact halign q hq
    · have hEq : endPointsOf (st.lineTable ++
          [(st.nextLineId, ⟨conn.l, "cacConnectorTwoPidShape", conn.sai, conn.sid, true⟩)]) q
          = q.dto.c.map (fun cr => cr.l) := by
        rcases mem_modifyFirst _ _ _ q hq with hq2 | ⟨q2, hq2, rfl⟩
        · rw [hlook q (hcids q hq2)]
          exact halign q hq2
        · rw [endPointsOf_addConn_start, dto_addConn_start, hlook q2 (hcids q2 hq2)]
          exact halign q2 hq2
      rw [endPointsOf_addConn_end, dto_addConn_end, hEq, List.map_append, hnew]
      simp

theorem processConn_WF (d : IDtoPidShape) (conn : ConnRecord) (st : EditorState)
    (h : WF st) : WF (processConn st d conn) := by
  unfold processConn
  split
  · exact processConnCore_WF st d.id conn h
  · exact h

theorem import_WF (data : List IDtoPidShape) : WF (importJson data) := by
  rw [importJson_eq, importInit_eq]
  refine foldl_preserve WF _ ?_ data _ ?_
  · intro s d hs
    exact foldl_preserve WF _ (fun s2 c h2 => processConn_WF d c s2 h2) d.c s hs
  · refine ⟨?_, ?_, ?_⟩
    · intro kv hkv; cases hkv
    · intro p hp c hc
      rcases List.mem_map.mp hp with ⟨d2, _, rfl⟩
      cases hc
    · intro p hp
      rcases List.mem_map.mp hp with ⟨d2, _, rfl⟩
      rfl

theorem refreshC_self : ∀ cs : List ConnRecord, refreshC cs (cs.map (fun cr => cr.l)) = cs := by
  intro cs
  induction cs with
  | nil => rfl
  | cons cr cs ih => exact congrArg (List.cons cr) ih

theorem export_of_aligned (st : EditorState) (h : Aligned st) :
    exportJson st = st.shapes.map (fun p => p.dto) := by
  unfold exportJson
  refine List.map_congr_left ?_
  intro p hp
  unfold exportShape
  rw [h p hp, refreshC_self]

/-! ### C6: unresolvable start id during import -/

/-- C6: importing a document with pairwise-distinct instance ids completes,
produces all instances, and keeps exactly the connection records whose `sid`
resolves to an instance id of the document — a record with an unresolvable
`sid` is the one omitted, without raising to the caller (import is total). -/
theorem importJson_skips_unresolved (data : List IDtoPidShape)
    (hn : (data.map (fun e => e.id)).Nodup) :
    (importJson data).shapes.length = data.length
    ∧ (importJson data).shapes.map (fun p => p.dto)
        = data.map (fun d => { d with c := d.c.filter (fun conn => resolves (data.map (fun e => e.id)) conn.sid) }) := by
  have h := import_dtos data hn
  refine ⟨?_, h⟩
  have h2 := congrArg List.length h
  simpa using h2

theorem importJson_skips_unresolved_witness :
    (D0.map (fun e => e.id)).Nodup
    ∧ ((importJson D0).shapes.length = D0.length
        ∧ (importJson D0).shapes.map (fun p => p.dto)
            = D0.map (fun d => { d with c := d.c.filter (fun conn => resolves (D0.map (fun e => e.id)) conn.sid) }))
    ∧ (importJson D0).shapes.map (fun p => p.dto) = [⟨tplA, 0, 0, 1, []⟩]
    ∧ resolves (D0.map (fun e => e.id)) 99 = false :=
  ⟨by decide, importJson_skips_unresolved D0 (by decide), by decide, by decide⟩

/-! ### C2: import/export round trip -/

/-- C2 counterexample: for the document `D0`, whose single connection has an
unresolvable `sid` (99), import-then-export is not the identity — the
connection is dropped — so the round trip fails for arbitrary documents. -/
theorem importExport_dangling_cex :
    exportJson (importJson D0) ≠ D0
    ∧ exportJson (importJson D0) = [⟨tplA, 0, 0, 1, []⟩] := by
  exact ⟨by decide, by decide⟩

/-- C2 amended: for every document whose instance ids are pairwise distinct
and whose every connection `sid` resolves to an instance id of the document
(the Diagram invariants of the spec), `importJson` followed by `exportJson`
reproduces the document exactly: same instances, positions, ids, and for
every connection identical `sai`/`sid`/`eai` and route points. -/
theorem importExport_roundTrip (data : List IDtoPidShape)
    (hn : (data.map (fun e => e.id)).Nodup)
    (hres : ∀ d ∈ data, ∀ conn ∈ d.c, resolves (data.map (fun e => e.id)) conn.sid = true) :
    exportJson (importJson data) = data := by
  rw [export_of_aligned _ (import_WF data).2.2, import_dtos data hn]
  have hone : ∀ d ∈ data,
      ({ d with c := d.c.filter (fun conn => resolves (data.map (fun e => e.id)) conn.sid) } : IDtoPidShape) = d := by
    intro d hd
    have hf : d.c.filter (fun conn => resolves (data.map (fun e => e.id)) conn.sid) = d.c :=
      List.filter_eq_self.mpr (fun conn hconn => hres d hd conn hconn)
    rw [hf]
  rw [List.map_congr_left hone]
  exact List.map_id' data

theorem importExport_roundTrip_witness :
    (D1.map (fun e => e.id)).Nodup
    ∧ (∀ d ∈ D1, ∀ conn ∈ d.c, resolves (D1.map (fun e => e.id)) conn.sid = true)
    ∧ exportJson (importJson D1) = D1 :=
  ⟨by decide, by decide, importExport_roundTrip D1 (by decide) (by decide)⟩

/-! ### C8: release over empty canvas -/

theorem endConnectingLine_eq (st : EditorState) (pos : ℚ × ℚ) (lid : ℕ) (line : Line)
    (hline : findCurrentLine st = some (lid, line))
    (hstart : (st.shapes.find? (fun p => p.dto.id == line.cacStartPidShapeId)).isSome = true) :
    endConnectingLine st pos
      = Except.ok (some (⟨modifyFirst (fun p => p.dto.id == line.cacStartPidShapeId)
                (fun p => addConnectorToPath p lid { line with points := recalculateTheLine line.points pos, name := "cacConnectorTwoPidShape" } line.cacStartAnchorIndex ConnType.start)
                st.shapes,
              setLine st.lineTable lid { line with points := recalculateTheLine line.points pos, name := "cacConnectorTwoPidShape" },
              st.nextLineId⟩,
             lid,
             { line with points := recalculateTheLine line.points pos, name := "cacConnectorTwoPidShape" })) := by
  simp only [endConnectingLine, hline]
  rw [if_pos hstart]

/-- A state reachable through the editor's own operations in which the
in-progress line's originating shape was deleted mid-gesture: add a shape,
press down on its anchor (creating the current line tagged `sid = 1`), then
delete the shape via the context menu. -/
def stOrphan : EditorState :=
  deleteShape (anchorMouseDown (addShape emptyState tplA 0 0 1) 1 0 (0, 0)) 0

/-- C8 counterexample: releasing over empty canvas at a perfectly resolvable
pointer position while the current line's tagged start shape no longer exists
makes the source throw a TypeError out of the click handler: no stub shape
and no connection are created (the state at the throw still has zero shapes),
refuting the claim's universal `exactly one stub and one connection`. -/
theorem stageClick_orphan_cex :
    stOrphan.shapes = []
    ∧ findCurrentLine stOrphan = some (0, lineW)
    ∧ ∃ s2, stageClick stOrphan (some (10, 20)) 7 = Except.error s2 ∧ s2.shapes = [] := by
  refine ⟨by decide, by decide, ⟨_, rfl, by decide⟩⟩

/-- C8 amended: with an in-progress line present *whose tagged start shape
still exists*, a stage click at a resolvable position `pos` succeeds and
appends exactly one new shape — the `emptyEnd` stub placed at `pos` with the
supplied id — carrying exactly one connection record, terminating at the
stub's anchor index 0 with the line's recalculated route and its original
start anchor/shape tags; every other shape's dto is untouched.  If the start
shape was deleted mid-gesture the handler instead throws and creates neither
stub nor connection (the counterexample above). -/
theorem stageClick_empty_canvas (st : EditorState) (pos : ℚ × ℚ) (rid : ℤ)
    (lid : ℕ) (line : Line)
    (hline : findCurrentLine st = some (lid, line))
    (hstart : (st.shapes.find? (fun p => p.dto.id == line.cacStartPidShapeId)).isSome = true) :
    (stageClick st (some pos) rid).map (fun s2 => s2.shapes.map (fun p => p.dto))
      = Except.ok (st.shapes.map (fun p => p.dto)
        ++ [⟨emptyEnd, pos.1, pos.2, rid, [⟨recalculateTheLine line.points pos, line.cacStartAnchorIndex, line.cacStartPidShapeId, 0⟩]⟩])
    ∧ (stageClick st (some pos) rid).map (fun s2 => s2.shapes.length)
      = Except.ok (st.shapes.length + 1) := by
  have hend := endConnectingLine_eq st pos lid line hline hstart
  have hclick : stageClick st (some pos) rid
      = Except.ok ⟨modifyFirst (fun p => p.dto.id == line.cacStartPidShapeId)
          (fun p => addConnectorToPath p lid { line with points := recalculateTheLine line.points pos, name := "cacConnectorTwoPidShape" } line.cacStartAnchorIndex ConnType.start)
          st.shapes
        ++ [addConnectorToPath ⟨⟨emptyEnd, pos.1, pos.2, rid, []⟩, []⟩ lid { line with points := recalculateTheLine line.points pos, name := "cacConnectorTwoPidShape" } 0 ConnType.endC],
          setLine st.lineTable lid { line with points := recalculateTheLine line.points pos, name := "cacConnectorTwoPidShape" },
          st.nextLineId⟩ := by
    simp only [stageClick, hline, Option.isSome_some, if_true, hend]
  have hmap : (modifyFirst (fun p => p.dto.id == line.cacStartPidShapeId)
          (fun p => addConnectorToPath p lid { line with points := recalculateTheLine line.points pos, name := "cacConnectorTwoPidShape" } line.cacStartAnchorIndex ConnType.start)
          st.shapes
        ++ [addConnectorToPath ⟨⟨emptyEnd, pos.1, pos.2, rid, []⟩, []⟩ lid { line with points := recalculateTheLine line.points pos, name := "cacConnectorTwoPidShape" } 0 ConnType.endC]).map (fun p => p.dto)
      = st.shapes.map (fun p => p.dto)
        ++ [⟨emptyEnd, pos.1, pos.2, rid, [⟨recalculateTheLine line.points pos, line.cacStartAnchorIndex, line.cacStartPidShapeId, 0⟩]⟩] := by
    rw [List.map_append]
    rw [modifyFirst_map_of_invariant (fun p : PlacedShape => p.dto.id == line.cacStartPidShapeId)
      (fun p : PlacedShape => addConnectorToPath p lid { line with points := recalculateTheLine line.points pos, name := "cacConnectorTwoPidShape" } line.cacStartAnchorIndex ConnType.start)
      (fun p : PlacedShape => p.dto) (fun a => rfl)]
    rfl
  constructor
  · rw [hclick]
    exact congrArg Except.ok hmap
  · rw [hclick]
    refine congrArg Except.ok ?_
    have hlen := congrArg List.length hmap
    simpa using hlen

theorem stageClick_empty_canvas_witness :
    findCurrentLine stW = some (0, lineW)
    ∧ ((stageClick stW (some (10, 20)) 7).map (fun s2 => s2.shapes.map (fun p => p.dto))
        = Except.ok (stW.shapes.map (fun p => p.dto)
          ++ [⟨emptyEnd, (10 : ℚ), (20 : ℚ), 7, [⟨recalculateTheLine lineW.points (10, 20), lineW.cacStartAnchorIndex, lineW.cacStartPidShapeId, 0⟩]⟩])
      ∧ (stageClick stW (some (10, 20)) 7).map (fun s2 => s2.shapes.length)
        = Except.ok (stW.shapes.length + 1)) :=
  ⟨by decide, stageClick_empty_canvas stW (10, 20) 7 0 lineW (by decide) (by decide)⟩

end ControlDiagram
